import Mathlib

/-!
Verification of the delivery pipeline of `cli_code/data_deliverer.py`
(class `DataDeliverer`): existence checking, suffix policy, delivery
state tracking, directory-scoped failure cascading, teardown summary,
compensating cleanup (finalize), temp-dir cleanup and the download
skip behaviour.  Each Python function used by a claim is shallowly
embedded as an executable Lean definition mirroring its control flow;
external collaborators (object store, metadata store, filesystem) are
passed in as explicit state or oracle functions.
-/

namespace DataDeliverer

/-- One per-stage progress pair, mirroring the in_progress/finished
sub-dictionaries kept for processing, upload and database in every
file-info dictionary (`get_file_info`, lines 533-538). -/
structure Stage where
  in_progress : Bool
  finished : Bool
deriving DecidableEq, Repr

/-- The per-file delivery record: the subset of the file-info dictionary
built by `get_file_info` (lines 521-538) that the delivery logic reads
and writes.  Paths are modelled as strings; `dir_name` is `none` for a
file that was not discovered inside a user-specified directory. -/
structure FileInfo where
  proceed : Bool
  error : String
  in_directory : Bool
  dir_name : Option String
  directory_path : String
  compressed : Bool
  new_file : String
  processing : Stage
  upload : Stage
  database : Stage
deriving DecidableEq, Repr

/-- The delivery map `self.data`: an ordered association list from file
path to record, mirroring insertion-ordered Python dictionaries. -/
abbrev Records := List (String × FileInfo)

/- ------------------------------------------------------------------
Suffix policy (`get_file_info`, lines 459-488 and `do_file_checks`,
lines 693-724): build the future suffix string and the bucket file
name.
------------------------------------------------------------------ -/

/-- The compression-marker suffix appended when the header check says
the file is not compressed (`proc_suff += ".zst"`, line 475). -/
def compressionMarker : String := ".zst"

/-- The encryption-marker suffix always appended
(`proc_suff += ".ccp"`, line 482). -/
def encryptionMarker : String := ".ccp"

/-- `proc_suff` as computed by `get_file_info` lines 465-482: start
empty, append `.zst` only when the file is not compressed, then always
append `.ccp`. -/
def proc_suff (compressed : Bool) : String :=
  (if !compressed then "" ++ compressionMarker else "") ++ encryptionMarker

/-- The bucket file name (target key) of `get_file_info` lines 487-488:
`str(directory_path / Path(file.name + proc_suff))`. -/
def bucketfilename (directory_path : String) (filename : String)
    (compressed : Bool) : String :=
  directory_path ++ "/" ++ (filename ++ proc_suff compressed)

/- ------------------------------------------------------------------
Existence check (`get_file_info`, lines 490-519): classify the target
key against the metadata store (`project_db[...]['files']`) and the
object store (`s3.file_exists_in_bucket`).
------------------------------------------------------------------ -/

/-- Error recorded when the key is already registered in the metadata
store (line 495, file-name interpolation elided). -/
def dbExistsError : String := "File already exists in the database. "

/-- Error recorded for the object-present/metadata-absent divergence
(lines 511-513, file-name interpolation elided); the code builds it by
concatenating the previous bucket error with two literals, the second
one being the contact-support instruction. -/
def consistencyError (prevError : String) : String :=
  prevError ++
    "\nFile already exists in bucket, but does NOT exist in database. " ++
    "Delivery cancelled, contact support."

/-- Outcome of the existence classification: either the file is
rejected with an error string, or delivery proceeds. -/
inductive CheckOutcome where
  | reject (error : String)
  | accept
deriving DecidableEq, Repr

/-- The existence-classification core of `get_file_info`
(lines 490-519).  `inDbFiles` is membership of the target key in
`project_db[self.project_id]['files']`; `inBucket` is the object-store
membership answer; `bucketError` is the string returned alongside it by
`s3.file_exists_in_bucket`.  Mirrors the exact control flow: the
metadata check may return early, then the bucket check runs with the
`in_db` flag recording whether the metadata hit was overridden. -/
def existence_check (overwrite : Bool) (inDbFiles : Bool) (inBucket : Bool)
    (bucketError : String) : CheckOutcome :=
  -- lines 491-500
  let in_db : Bool := false
  let (in_db, stop) :=
    if inDbFiles then
      if !overwrite then (in_db, some (CheckOutcome.reject dbExistsError))
      else (true, none)
    else (in_db, none)
  match stop with
  | some o => o
  | none =>
    -- lines 502-519
    if inBucket then
      if !in_db then CheckOutcome.reject (consistencyError bucketError)
      else if !overwrite then CheckOutcome.reject bucketError
      else CheckOutcome.accept
    else CheckOutcome.accept

/-- Whether an outcome proceeds. -/
def CheckOutcome.proceeds : CheckOutcome → Bool
  | .accept => true
  | .reject _ => false

/-- The error text of an outcome, `""` when it proceeds. -/
def CheckOutcome.errorText : CheckOutcome → String
  | .accept => ""
  | .reject e => e

/- ------------------------------------------------------------------
Association-list helpers modelling Python dictionary assignment:
replace the value of an existing key in place, append a fresh key at
the end.
------------------------------------------------------------------ -/

/-- Dictionary assignment `dict[k] = v` on an ordered association
list. -/
def listSet {α : Type} (l : List (String × α)) (k : String) (v : α) :
    List (String × α) :=
  match l with
  | [] => [(k, v)]
  | (k1, v1) :: rest =>
    if k1 == k then (k1, v) :: rest else (k1, v1) :: listSet rest k v

/- ------------------------------------------------------------------
`set_progress` (lines 838-877): pick the stage dictionary named by the
processing/upload/db flags, then overwrite its two keys.  With
`started` true the code writes in_progress := started (true) and
finished := not started (false); with `finished` true it writes
in_progress := not finished (false) and finished := true.  If a stage
access happens with no stage flag set, the empty-string dictionary key
raises a KeyError (only DataException is caught, line 875), modelled
as an error result.
------------------------------------------------------------------ -/

/-- Shallow embedding of `DataDeliverer.set_progress`
(lines 838-877), acting on one file-info record. -/
def set_progress (info : FileInfo) (processing upload db : Bool)
    (started finished : Bool) : Except String FileInfo :=
  if started then
    if processing then
      .ok { info with processing := { in_progress := true, finished := false } }
    else if upload then
      .ok { info with upload := { in_progress := true, finished := false } }
    else if db then
      .ok { info with database := { in_progress := true, finished := false } }
    else .error "KeyError: empty stage key"
  else if finished then
    if processing then
      .ok { info with processing := { in_progress := false, finished := true } }
    else if upload then
      .ok { info with upload := { in_progress := false, finished := true } }
    else if db then
      .ok { info with database := { in_progress := false, finished := true } }
    else .error "KeyError: empty stage key"
  else .ok info

/- ------------------------------------------------------------------
`_finalize` (lines 631-665): compensating deletion restoring
object-store/metadata-store agreement for a terminal record.  The two
stores are modelled as key lists; the fallibility of the two delete
operations (ClientError from `s3.delete_item`, the caught
CouchDBException around the metadata deletion, whose client class is
not part of this repository) is injected as two boolean oracles.
------------------------------------------------------------------ -/

/-- The external stores: object-store keys (`bucket`) and
metadata-store registered keys (`project_db[...].files`). -/
structure Stores where
  bucket : List String
  dbFiles : List String
deriving DecidableEq, Repr

/-- Shallow embedding of `DataDeliverer._finalize` (lines 631-665).
Returns the boolean result of the method together with the stores
after any compensating deletion.  A failing delete is caught, logged
and turned into a `false` return (lines 650-652 and 661-663); the
stores are then left unchanged. -/
def finalize (info : FileInfo) (stores : Stores)
    (s3DeleteFails dbDeleteFails : Bool) : Bool × Stores :=
  -- second with-block, lines 654-663
  let dbBlock : Stores → Bool × Stores := fun st =>
    if info.database.finished && !info.upload.finished then
      if dbDeleteFails then (false, st)
      else (true, { st with dbFiles := st.dbFiles.erase info.new_file })
    else (true, st)
  -- first with-block, lines 644-652
  if info.upload.finished && !info.database.finished then
    if s3DeleteFails then (false, stores)
    else dbBlock { stores with bucket := stores.bucket.erase info.new_file }
  else dbBlock stores

/- ------------------------------------------------------------------
`update_delivery` (lines 781-836): record a per-file status update,
cancelling directory siblings when break_on_fail is set.
------------------------------------------------------------------ -/

/-- One value of the `self.failed` dictionary: Python stores either a
single-error dictionary (for a plain file key) or a nested
path-to-error dictionary (for a directory key); an update with a path
key adds to `files`, a whole-entry assignment replaces both parts. -/
structure FailedEntry where
  errorField : Option String := none
  files : List (String × String) := []
deriving DecidableEq, Repr

/-- The `self.failed` bookkeeping dictionary. -/
abbrev Failed := List (String × FailedEntry)

/-- The status-update dictionary handed to `update_delivery`,
restricted to the two keys the delivery bookkeeping reads. -/
structure UpdInfo where
  proceed : Bool
  error : String
deriving DecidableEq, Repr

/-- The cascade error message written onto every cancelled sibling
(lines 812-813). -/
def cascadeError (file updError : String) : String :=
  "Failed file: " ++ file ++ " -- " ++ updError

/-- The dictionary key used for a directory group entry of
`self.failed`. -/
def dirKeyOf (info : FileInfo) : String := info.dir_name.getD ""

/-- Whether a record is cancelled by the break-on-fail cascade of a
failing record `finfo`: same directory group, upload neither in
progress nor finished (lines 807-809). -/
def cascadeHits (finfo : FileInfo) (i : FileInfo) : Bool :=
  i.dir_name == finfo.dir_name
    && !i.upload.in_progress && !i.upload.finished

/-- The per-record effect of the break-on-fail loop body
(lines 806-814): a record hit by the cascade is cancelled with the
cascade error, any other record is left as it is. -/
def cascadeFn (finfo : FileInfo) (file : String) (upd : UpdInfo)
    (i : FileInfo) : FileInfo :=
  if cascadeHits finfo i then
    { i with proceed := false, error := cascadeError file upd.error }
  else i

/-- The delivery dictionary after the break-on-fail loop
(lines 805-818). -/
def cascadeUpdate (data : Records) (finfo : FileInfo) (file : String)
    (upd : UpdInfo) : Records :=
  data.map (fun q => (q.1, cascadeFn finfo file upd q.2))

/-- `failed[dirKey].update(path -> error)` (lines 815-817). -/
def failedDirInsert (f : Failed) (dirKey path msg : String) : Failed :=
  match f.lookup dirKey with
  | some entry => listSet f dirKey { entry with files := listSet entry.files path msg }
  | none => listSet f dirKey { errorField := none, files := listSet [] path msg }

/-- Lines 799-800: create the directory entry of `self.failed` when it
is absent. -/
def ensureDirEntry (failed : Failed) (finfo : FileInfo) : Failed :=
  if (failed.lookup (dirKeyOf finfo)).isSome then failed
  else failed ++ [(dirKeyOf finfo, { errorField := none, files := [] })]

/-- The `self.failed` bookkeeping after the break-on-fail loop
(lines 799-817). -/
def cascadeFailedUpdate (data : Records) (failed : Failed)
    (finfo : FileInfo) (file : String) (upd : UpdInfo) : Failed :=
  data.foldl (fun acc q =>
    if cascadeHits finfo q.2 then
      failedDirInsert acc (dirKeyOf finfo) q.1 (cascadeError file upd.error)
    else acc) (ensureDirEntry failed finfo)

/-- The `self.failed` bookkeeping for an in-directory failure without
break-on-fail (lines 799-800, 820-822 and 828). -/
def dirSingleFailedUpdate (failed : Failed) (finfo : FileInfo)
    (file : String) (upd : UpdInfo) : Failed :=
  let failed2 := failedDirInsert (ensureDirEntry failed finfo)
    (dirKeyOf finfo) file upd.error
  listSet failed2 file { errorField := some upd.error, files := [] }

/-- Shallow embedding of `DataDeliverer.update_delivery`
(lines 781-836).  `data` and `failed` are the session dictionaries,
`file` the record being updated, `upd` the update.  A missing record
key raises (KeyError, uncaught), modelled as an error result.  In the
proceed branch the dictionary merge is modelled on the two fields the
bookkeeping reads. -/
def update_delivery (break_on_fail : Bool) (data : Records)
    (failed : Failed) (file : String) (upd : UpdInfo) :
    Except String (Records × Failed) :=
  match data.lookup file with
  | none => .error "KeyError: unknown file"
  | some finfo =>
    if !upd.proceed then
      if finfo.in_directory then
        if break_on_fail then
          -- lines 799-818: cancel every not-yet-uploading group sibling
          .ok (cascadeUpdate data finfo file upd,
            cascadeFailedUpdate data failed finfo file upd)
        else
          -- lines 799-800, 820-822, then fall-through to lines 826-828
          .ok (listSet data file
            { finfo with proceed := false, error := upd.error },
            dirSingleFailedUpdate failed finfo file upd)
      else
        -- lines 826-828
        let data1 := listSet data file
          { finfo with proceed := false, error := upd.error }
        let failed1 := listSet failed file
          { errorField := some upd.error, files := [] }
        .ok (data1, failed1)
    else
      -- lines 832-836
      .ok (listSet data file
        { finfo with proceed := upd.proceed, error := upd.error }, failed)

/- ------------------------------------------------------------------
`__exit__` (lines 150-210): session teardown.  Walk the delivery
dictionary; a record whose proceed flag, upload.finished and
database.finished are all true is listed in the succeeded table
(unless it also appears in `self.failed`, which raises the
inconsistency exception, lines 173-176); every other record is handed
to `_finalize` and listed in the failed table.  Tables are
de-duplicated by display name through suc_dict/fai_dict.
------------------------------------------------------------------ -/

/-- The teardown success condition actually tested on line 171-172:
proceed, upload finished and database-registration finished. -/
def exitSuccessCond (info : FileInfo) : Bool :=
  info.proceed && info.upload.finished && info.database.finished

/-- The display name used for summary rows (lines 178-179 and
190-191): the directory name for a record found in a directory, the
file path otherwise. -/
def displayName (f : String) (info : FileInfo) : String :=
  if info.in_directory then info.dir_name.getD "" else f

/-- The teardown summary: succeeded rows, failed rows (each
de-duplicated by display name, in insertion order) and the files
handed to `_finalize`, in iteration order. -/
structure ExitSummary where
  succeededRows : List (String × String)
  failedRows : List (String × String)
  finalized : List String
deriving DecidableEq, Repr

/-- One iteration of the teardown loop of `__exit__`
(lines 170-198) for the record of file `f`.  `failedKeys` is the key
set of `self.failed`; the store mutation performed inside `_finalize`
is studied separately through `finalize`, here only the routing of
each record is tracked. -/
def exit_step (failedKeys : List String) (acc : ExitSummary)
    (f : String) (info : FileInfo) : Except String ExitSummary :=
  if exitSuccessCond info then
    -- lines 173-176: delivered-and-failed inconsistency raises
    if failedKeys.contains f then
      .error ("File: " ++ f ++
        " -- Recorded as delivered, but also as failed. Bug. ")
    else
      let suc := displayName f info
      let loc := info.directory_path ++ "\n"
      .ok (if acc.succeededRows.any (fun r => r.1 == suc) then acc
        else { acc with succeededRows := acc.succeededRows ++ [(suc, loc)] })
  else
    -- lines 187-198: finalize, then failed table
    let acc1 := { acc with finalized := acc.finalized ++ [f] }
    let fail := displayName f info
    let err := info.error ++ "\n"
    .ok (if acc1.failedRows.any (fun r => r.1 == fail) then acc1
      else { acc1 with failedRows := acc1.failedRows ++ [(fail, err)] })

/-- The teardown loop of `__exit__` (lines 170-198): run `exit_step`
over the delivery dictionary, propagating the inconsistency
exception. -/
def exit_loop (failedKeys : List String) :
    Records → ExitSummary → Except String ExitSummary
  | [], acc => .ok acc
  | (f, info) :: rest, acc =>
    match exit_step failedKeys acc f info with
    | .ok acc2 => exit_loop failedKeys rest acc2
    | .error e => .error e

/-- Session teardown over the whole delivery dictionary
(`__exit__`, lines 170-198), starting from empty tables. -/
def exit_data (data : Records) (failedKeys : List String) :
    Except String ExitSummary :=
  exit_loop failedKeys data { succeededRows := [], failedRows := [], finalized := [] }

/- ------------------------------------------------------------------
`_data_to_deliver` (lines 569-629): collect the input paths, reject
duplicates, classify each file.  Modelled for the put direction with
every input a plain file; paths are taken as already canonical, so
the duplicate test collapses to key membership in the accepted
dictionary.  `classify` is the `get_file_info` outcome oracle and
`existsFn` the filesystem-existence oracle; the returned trace lists
every file for which `get_file_info` (classification plus store I/O)
was invoked, in call order.
------------------------------------------------------------------ -/

/-- The duplicate-path error raised on lines 601-604. -/
def duplicateError (d : String) : String :=
  "The path to file " ++ d ++
    " is listed multiple times, please remove path dublicates."

/-- Result of delivery setup: the accepted dictionary (`all_files`)
and the initially failed records (`initial_fail`). -/
structure SetupOutcome where
  all_files : Records
  initial_fail : Records
deriving DecidableEq, Repr

/-- The loop of `_data_to_deliver` (lines 598-627) for the put
direction, threading the accepted and failed dictionaries and the
classification trace. -/
def data_to_deliver_go (classify : String → FileInfo)
    (existsFn : String → Bool) :
    List String → Records → Records → List String →
    Except String SetupOutcome × List String
  | [], acc, fail, trace => (.ok { all_files := acc, initial_fail := fail }, trace)
  | d :: rest, acc, fail, trace =>
    -- lines 600-604: duplicate check against the accepted keys
    if acc.any (fun q => q.1 == d) then (.error (duplicateError d), trace)
    -- lines 610-612: missing path aborts the run
    else if !existsFn d then
      (.error ("Trying to deliver a non-existing file/folder: " ++ d ++
        " -- Delivery not possible."), trace)
    else
      -- lines 621-627: classify and sort into all_files/initial_fail
      let finfo := classify d
      if !finfo.proceed then
        data_to_deliver_go classify existsFn rest acc
          (fail ++ [(d, finfo)]) (trace ++ [d])
      else
        data_to_deliver_go classify existsFn rest (acc ++ [(d, finfo)])
          fail (trace ++ [d])

/-- Shallow embedding of `DataDeliverer._data_to_deliver`
(lines 569-629, put direction). -/
def data_to_deliver (classify : String → FileInfo)
    (existsFn : String → Bool) (data_list : List String) :
    Except String SetupOutcome × List String :=
  data_to_deliver_go classify existsFn data_list [] [] []

/- ------------------------------------------------------------------
`_clear_tempdir` (lines 427-441): delete every temporary sub-folder.
`shutil.rmtree` fails with OSError; the loop body catches only the
custom DeliverySystemException, so an OSError propagates out of the
loop and the remaining folders are never attempted.
------------------------------------------------------------------ -/

/-- Result of one `shutil.rmtree` call: success, an OSError (the
exception filesystem deletion actually raises), or the custom
DeliverySystemException targeted by the except clause on line 438. -/
inductive DeleteResult where
  | success
  | osError (msg : String)
  | dsError (msg : String)
deriving DecidableEq, Repr

/-- Shallow embedding of `DataDeliverer._clear_tempdir`
(lines 427-441) over the list of temporary sub-folders, with the
per-folder deletion outcome supplied by `rmtree`.  Returns the folders
for which deletion was attempted, in order, and the uncaught exception
message if the loop aborted. -/
def clear_tempdir (rmtree : String → DeleteResult) :
    List String → List String × Option String
  | [] => ([], none)
  | d :: rest =>
    match rmtree d with
    | .success =>
      let (att, exc) := clear_tempdir rmtree rest
      (d :: att, exc)
    | .dsError _ =>
      -- lines 438-441: caught, logged, loop continues
      let (att, exc) := clear_tempdir rmtree rest
      (d :: att, exc)
    | .osError m =>
      -- not matched by the except clause: propagates, loop aborts
      ([d], some m)

/- ------------------------------------------------------------------
`get` (lines 970-1014): download every key under the requested path.
The local filesystem is modelled as a partial map from path to
contents; `download` is the object-store read oracle (`none` models a
failed transfer that leaves no local file).
------------------------------------------------------------------ -/

/-- The local filesystem: contents stored at each path. -/
abbrev LocalFS := String → Option String

/-- Point update of the local filesystem. -/
def fsWrite (fs : LocalFS) (p : String) (c : String) : LocalFS :=
  fun q => if q == p then some c else fs q

/-- The local destination of a downloaded key
(`self.tempdir[1] / Path(file.key)`, lines 987-988). -/
def destPath (tempdir : String) (key : String) : String :=
  tempdir ++ "/" ++ key

/-- Shallow embedding of the per-key loop of `DataDeliverer.get`
(lines 986-1011): for each matching key, skip with a printed warning
when the local destination already exists (lines 1009-1011),
otherwise download into place; a failed transfer is recorded on the
delivery dictionary and leaves no local file.  Returns the final
filesystem and the list of skipped destinations, in order. -/
def get_download (download : String → Option String) (tempdir : String) :
    List String → LocalFS → LocalFS × List String
  | [], fs => (fs, [])
  | key :: rest, fs =>
    if (fs (destPath tempdir key)).isSome then
      ((get_download download tempdir rest fs).1,
        destPath tempdir key :: (get_download download tempdir rest fs).2)
    else
      match download key with
      | some content =>
        get_download download tempdir rest
          (fsWrite fs (destPath tempdir key) content)
      | none => get_download download tempdir rest fs

/- ------------------------------------------------------------------
Concrete sample records and oracles used to evaluate the embedded
operations on closed inputs.
------------------------------------------------------------------ -/

/-- A stage that has completed. -/
def stageDone : Stage := { in_progress := false, finished := true }

/-- A stage that has not started. -/
def stageIdle : Stage := { in_progress := false, finished := false }

/-- A record whose upload completed but whose database registration
did not. -/
def demoUploaded : FileInfo :=
  { proceed := true, error := "", in_directory := false, dir_name := none,
    directory_path := "proj", compressed := false,
    new_file := "proj/a.zst.ccp",
    processing := stageDone, upload := stageDone, database := stageIdle }

/-- A record whose database registration completed but whose upload
did not. -/
def demoRegistered : FileInfo :=
  { demoUploaded with upload := stageIdle, database := stageDone }

/-- Stores holding exactly the demo target key in both places. -/
def demoStores : Stores :=
  { bucket := ["proj/a.zst.ccp"], dbFiles := ["proj/a.zst.ccp"] }

/-- A record with everything finished: terminal success shape. -/
def demoDelivered : FileInfo :=
  { demoUploaded with database := stageDone }

/-- A record reported as succeeded by `__exit__` although its
processing stage never finished. -/
def demoNoProcessing : FileInfo :=
  { demoDelivered with processing := stageIdle }

/-- A cancelled record. -/
def demoCancelled : FileInfo :=
  { demoUploaded with
      proceed := false, error := "boom",
      upload := stageIdle, database := stageIdle }

/-- A directory-group member with nothing started, in group g. -/
def demoGroupIdle : FileInfo :=
  { proceed := true, error := "", in_directory := true,
    dir_name := some "g", directory_path := "proj/g", compressed := false,
    new_file := "proj/g/x.zst.ccp",
    processing := stageIdle, upload := stageIdle, database := stageIdle }

/-- A directory-group member whose upload already finished. -/
def demoGroupUploaded : FileInfo :=
  { demoGroupIdle with processing := stageDone, upload := stageDone }

/-- Three-record directory group: two idle members and one member
already uploaded. -/
def demoGroupData : Records :=
  [("g/f1", demoGroupIdle), ("g/f2", demoGroupIdle),
   ("g/f3", demoGroupUploaded)]

/-- A rejection update as produced by a failed existence check. -/
def demoRejectUpd : UpdInfo := { proceed := false, error := "rejected" }

/-- Classification oracle accepting every file. -/
def demoClassify (d : String) : FileInfo :=
  { proceed := true, error := "", in_directory := false, dir_name := none,
    directory_path := "proj", compressed := false,
    new_file := d ++ ".zst.ccp",
    processing := stageIdle, upload := stageIdle, database := stageIdle }

/-- Deletion oracle for the temp-dir loop: the first folder fails with
an OSError, the rest delete fine. -/
def demoRmtree (d : String) : DeleteResult :=
  if d == "d1" then .osError "permission denied" else .success

/-- Deletion oracle raising only the caught custom exception type. -/
def demoRmtreeCaught (d : String) : DeleteResult :=
  if d == "d1" then .dsError "custom failure" else .success

/-- A local filesystem already holding the download target of key a. -/
def demoFS : LocalFS :=
  fun p => if p == destPath "tmp" "a" then some "old" else none

/-- Download oracle returning contents for every key. -/
def demoDownload (k : String) : Option String := some ("data-" ++ k)

/-- A two-record delivery dictionary for teardown: one delivered, one
cancelled. -/
def demoExitData : Records :=
  [("ok1", demoDelivered), ("bad", demoCancelled)]

/-- The summary produced by tearing down `demoExitData` with no
failed keys. -/
def demoExitRes : ExitSummary :=
  { succeededRows := [("ok1", "proj\n")],
    failedRows := [("bad", "boom\n")],
    finalized := ["bad"] }

/- ==================================================================
Theorems
================================================================== -/

/-- C1: for every target key classified before delivery
(`get_file_info`, the classification used by `_data_to_deliver`), the
proceed/reject outcome over the four metadata-store/object-store
membership combinations is exactly the existence matrix: both absent
proceeds; registered-only proceeds iff overwrite; object-only is
rejected regardless of overwrite with the consistency error telling
the user to contact support; both present proceeds iff overwrite. -/
theorem existence_matrix (overwrite : Bool) (e : String) :
    existence_check overwrite false false e = .accept ∧
    (existence_check overwrite true false e).proceeds = overwrite ∧
    (existence_check overwrite false true e).proceeds = false ∧
    (∃ s, (existence_check overwrite false true e).errorText =
      s ++ "Delivery cancelled, contact support.") ∧
    (existence_check overwrite true true e).proceeds = overwrite := by
  cases overwrite <;> exact ⟨rfl, rfl, rfl, ⟨_, rfl⟩, rfl⟩

/-- C4: the target key of an uncompressed input ends in the
compression marker followed by the encryption marker; the target key
of a header-confirmed-compressed input gets the encryption marker as
its only added suffix, so the compression step is skipped for it. -/
theorem suffix_policy (d n : String) :
    (∃ stem, bucketfilename d n false =
      stem ++ (compressionMarker ++ encryptionMarker)) ∧
    (∃ stem, bucketfilename d n true = stem ++ encryptionMarker) ∧
    proc_suff true = encryptionMarker := by
  refine ⟨⟨d ++ "/" ++ n, ?_⟩, ⟨d ++ "/" ++ n, ?_⟩, rfl⟩ <;>
    simp [bucketfilename, proc_suff, compressionMarker, encryptionMarker,
      String.append_assoc]

/-- C5 counterexample: stage completion is not monotonic.  A record
whose upload stage is finished is reset to in_progress=true,
finished=false by the progress-setting operation with started=true on
that stage. -/
theorem set_progress_not_monotone :
    demoUploaded.upload.finished = true ∧
    set_progress demoUploaded false true false true false =
      .ok { demoUploaded with
              upload := { in_progress := true, finished := false } } :=
  ⟨rfl, rfl⟩

/-- C5 amended: progress-setting operations with started=false never
reset a finished stage, but an operation with started=true
unconditionally rewrites the selected stage to in_progress=true,
finished=false, even when that stage was already finished. -/
theorem set_progress_monotone_unless_started (info : FileInfo)
    (p u d fin : Bool) :
    (∀ info2, set_progress info p u d false fin = .ok info2 →
      (info.processing.finished = true → info2.processing.finished = true) ∧
      (info.upload.finished = true → info2.upload.finished = true) ∧
      (info.database.finished = true → info2.database.finished = true)) ∧
    (p = true → set_progress info p u d true fin =
      .ok { info with
              processing := { in_progress := true, finished := false } }) ∧
    (p = false → u = true → set_progress info p u d true fin =
      .ok { info with
              upload := { in_progress := true, finished := false } }) ∧
    (p = false → u = false → d = true → set_progress info p u d true fin =
      .ok { info with
              database := { in_progress := true, finished := false } }) := by
  refine ⟨fun info2 h => ?_, fun hp => ?_, fun hp hu => ?_,
    fun hp hu hd => ?_⟩
  · cases p <;> cases u <;> cases d <;> cases fin <;>
      simp only [set_progress, if_true, if_false, Bool.false_eq_true,
        ite_true, ite_false, Except.ok.injEq, reduceCtorEq] at h <;>
      (try subst h) <;> simp
  · subst hp; rfl
  · subst hp; subst hu; rfl
  · subst hp; subst hu; subst hd; rfl

/-- C5 witness: the monotonicity part applied to the demo record with
a finished upload stage and a finished-setting operation. -/
theorem set_progress_monotone_unless_started_witness :
    ({ demoUploaded with
        upload := { in_progress := false, finished := true } } :
      FileInfo).upload.finished = true :=
  ((set_progress_monotone_unless_started demoUploaded false true false
    true).1 _ rfl).2.1 rfl

/-- C8: the temp-dir cleanup loop only survives failures of the
custom exception type its except clause names; the OSError that
`shutil.rmtree` actually raises propagates and aborts the loop, so
the remaining artifacts are never attempted.  With the failing first
folder, only that folder is attempted and the exception escapes; the
caught custom type, by contrast, would continue. -/
theorem clear_tempdir_aborts_on_oserror :
    clear_tempdir demoRmtree ["d1", "d2"] =
      (["d1"], some "permission denied") ∧
    clear_tempdir demoRmtreeCaught ["d1", "d2"] = (["d1", "d2"], none) :=
  ⟨rfl, rfl⟩

/-- C3: finalize restores store agreement for a record whose upload
and registration disagree.  Upload finished without registration: the
object under the target key is deleted from the object store and the
metadata store is untouched; registration finished without upload: the
metadata entry is deleted and the object store is untouched; a failing
deletion is reported by a false return value with both stores left
unchanged (the embedding is total, so nothing is raised). -/
theorem finalize_restores_agreement (info : FileInfo) (stores : Stores)
    (s3F dbF : Bool) (hb : stores.bucket.Nodup)
    (hd : stores.dbFiles.Nodup) :
    (info.upload.finished = true → info.database.finished = false →
      s3F = false →
      (finalize info stores s3F dbF).1 = true ∧
      (finalize info stores s3F dbF).2.bucket =
        stores.bucket.erase info.new_file ∧
      info.new_file ∉ (finalize info stores s3F dbF).2.bucket ∧
      (finalize info stores s3F dbF).2.dbFiles = stores.dbFiles) ∧
    (info.database.finished = true → info.upload.finished = false →
      dbF = false →
      (finalize info stores s3F dbF).1 = true ∧
      (finalize info stores s3F dbF).2.dbFiles =
        stores.dbFiles.erase info.new_file ∧
      info.new_file ∉ (finalize info stores s3F dbF).2.dbFiles ∧
      (finalize info stores s3F dbF).2.bucket = stores.bucket) ∧
    (info.upload.finished = true → info.database.finished = false →
      s3F = true → finalize info stores s3F dbF = (false, stores)) ∧
    (info.database.finished = true → info.upload.finished = false →
      dbF = true → finalize info stores s3F dbF = (false, stores)) := by
  refine ⟨fun h1 h2 h3 => ?_, fun h1 h2 h3 => ?_,
    fun h1 h2 h3 => ?_, fun h1 h2 h3 => ?_⟩ <;>
    simp [finalize, h1, h2, h3, hb.not_mem_erase, hd.not_mem_erase]

/-- Looking a key up after a value-only map visits the same entry. -/
theorem lookup_map_value (h : FileInfo → FileInfo) (l : Records)
    (p : String) :
    (l.map (fun q => (q.1, h q.2))).lookup p = (l.lookup p).map h := by
  induction l with
  | nil => rfl
  | cons q rest ih =>
    cases hq : p == q.1 <;> simp [List.lookup, hq, ih]

/-- Dictionary assignment stores the assigned value under the key. -/
theorem listSet_lookup_self {α : Type} (l : List (String × α))
    (k : String) (v : α) : (listSet l k v).lookup k = some v := by
  induction l with
  | nil => simp [listSet, List.lookup]
  | cons q rest ih =>
    obtain ⟨k1, v1⟩ := q
    by_cases hq : k1 = k
    · subst hq; simp [listSet, List.lookup]
    · have hk : (k == k1) = false := by
        simp [Ne.symm hq]
      simp [listSet, List.lookup, hq, hk, ih]

/-- Dictionary assignment leaves every other key unchanged. -/
theorem listSet_lookup_ne {α : Type} (l : List (String × α))
    (k : String) (v : α) (p : String) (hp : p ≠ k) :
    (listSet l k v).lookup p = l.lookup p := by
  have hpk : (p == k) = false := by simp [hp]
  induction l with
  | nil => simp [listSet, List.lookup, hpk]
  | cons q rest ih =>
    obtain ⟨k1, v1⟩ := q
    by_cases hq : k1 = k
    · subst hq; simp [listSet, List.lookup, hpk]
    · simp [listSet, List.lookup, hq, ih]

/-- C2: the break-on-fail cascade.  For a record of a directory group
rejected while `proceed` is withdrawn, with break-on-fail enabled the
update cancels exactly the group siblings whose upload has neither
started nor finished, writing the error that names the failing file
and its error text, and leaves every other record (uploading,
uploaded, or outside the group) unchanged; with break-on-fail
disabled only the failing record is cancelled and every other key of
the delivery dictionary is untouched. -/
theorem update_delivery_cascade (data : Records) (failed : Failed)
    (file : String) (finfo : FileInfo) (upd : UpdInfo)
    (hlk : data.lookup file = some finfo)
    (hdir : finfo.in_directory = true)
    (hupd : upd.proceed = false) :
    (update_delivery true data failed file upd =
      .ok (cascadeUpdate data finfo file upd,
        cascadeFailedUpdate data failed finfo file upd)) ∧
    (∀ p i, data.lookup p = some i →
      (cascadeHits finfo i = true →
        (cascadeUpdate data finfo file upd).lookup p =
          some { i with
                  proceed := false,
                  error := cascadeError file upd.error }) ∧
      (cascadeHits finfo i = false →
        (cascadeUpdate data finfo file upd).lookup p = some i)) ∧
    (update_delivery false data failed file upd =
      .ok (listSet data file
        { finfo with proceed := false, error := upd.error },
        dirSingleFailedUpdate failed finfo file upd)) ∧
    ((listSet data file
        { finfo with proceed := false, error := upd.error }).lookup file =
      some { finfo with proceed := false, error := upd.error }) ∧
    (∀ p, p ≠ file →
      (listSet data file
        { finfo with proceed := false, error := upd.error }).lookup p =
        data.lookup p) := by
  refine ⟨?_, fun p i hpi => ⟨fun hc => ?_, fun hc => ?_⟩, ?_, ?_, ?_⟩
  · simp [update_delivery, hlk, hdir, hupd]
  · rw [cascadeUpdate, lookup_map_value, hpi]
    simp [cascadeFn, hc]
  · rw [cascadeUpdate, lookup_map_value, hpi]
    simp [cascadeFn, hc]
  · simp [update_delivery, hlk, hdir, hupd]
  · exact listSet_lookup_self data file _
  · exact fun p hp => listSet_lookup_ne data file _ p hp

/-- C2 witness: the three-record demo group with file g/f1 failing.
With break-on-fail the idle sibling g/f2 is cancelled with the
cascade error and the already-uploaded sibling g/f3 is untouched;
without break-on-fail, g/f2 keeps its old record. -/
theorem update_delivery_cascade_witness :
    ((cascadeUpdate demoGroupData demoGroupIdle "g/f1"
        demoRejectUpd).lookup "g/f2" =
      some { demoGroupIdle with
              proceed := false,
              error := cascadeError "g/f1" "rejected" }) ∧
    ((cascadeUpdate demoGroupData demoGroupIdle "g/f1"
        demoRejectUpd).lookup "g/f3" = some demoGroupUploaded) ∧
    ((listSet demoGroupData "g/f1"
        { demoGroupIdle with proceed := false, error := "rejected" }).lookup
        "g/f2" = demoGroupData.lookup "g/f2") :=
  ⟨((update_delivery_cascade demoGroupData [] "g/f1" demoGroupIdle
      demoRejectUpd rfl rfl rfl).2.1 "g/f2" demoGroupIdle rfl).1 rfl,
    ((update_delivery_cascade demoGroupData [] "g/f1" demoGroupIdle
      demoRejectUpd rfl rfl rfl).2.1 "g/f3" demoGroupUploaded rfl).2 rfl,
    (update_delivery_cascade demoGroupData [] "g/f1" demoGroupIdle
      demoRejectUpd rfl rfl rfl).2.2.2.2 "g/f2" (by decide)⟩

/-- In a dictionary with no duplicate keys, a key determines its
record. -/
theorem assoc_key_unique (l : Records) (f : String) (i j : FileInfo)
    (hnd : (l.map Prod.fst).Nodup) (hi : (f, i) ∈ l) (hj : (f, j) ∈ l) :
    i = j := by
  induction l with
  | nil => cases hi
  | cons q rest ih =>
    rw [List.map_cons, List.nodup_cons] at hnd
    rcases List.mem_cons.mp hi with h1 | h1 <;>
      rcases List.mem_cons.mp hj with h2 | h2
    · exact congrArg Prod.snd (h1.trans h2.symm)
    · exfalso
      exact hnd.1 (h1 ▸ (List.mem_map_of_mem Prod.fst h2 : (f, j).1 ∈ _))
    · exfalso
      exact hnd.1 (h2 ▸ (List.mem_map_of_mem Prod.fst h1 : (f, i).1 ∈ _))
    · exact ih hnd.2 h1 h2

/-- A successful teardown step only appends to the summary. -/
theorem exit_step_mono (fk : List String) (acc : ExitSummary) (f : String)
    (info : FileInfo) (acc2 : ExitSummary)
    (h : exit_step fk acc f info = .ok acc2) :
    (∀ x, x ∈ acc.finalized → x ∈ acc2.finalized) ∧
    (∀ r, r ∈ acc.failedRows → r ∈ acc2.failedRows) ∧
    (∀ r, r ∈ acc.succeededRows → r ∈ acc2.succeededRows) := by
  unfold exit_step at h
  split at h
  · split at h
    · cases h
    · injection h with h; subst h
      refine ⟨fun x hx => ?_, fun r hr => ?_, fun r hr => ?_⟩ <;>
        (split <;>
          first
            | exact hx
            | exact hr
            | exact List.mem_append_left _ hx
            | exact List.mem_append_left _ hr)
  · injection h with h; subst h
    refine ⟨fun x hx => ?_, fun r hr => ?_, fun r hr => ?_⟩ <;>
      (split <;>
        first
          | exact hx
          | exact hr
          | exact List.mem_append_left _ hx
          | exact List.mem_append_left _ hr)

/-- The teardown loop only appends to the summary. -/
theorem exit_loop_mono (fk : List String) (l : Records) :
    ∀ acc res, exit_loop fk l acc = .ok res →
      (∀ x, x ∈ acc.finalized → x ∈ res.finalized) ∧
      (∀ r, r ∈ acc.failedRows → r ∈ res.failedRows) ∧
      (∀ r, r ∈ acc.succeededRows → r ∈ res.succeededRows) := by
  induction l with
  | nil =>
    intro acc res h
    injection h with h; subst h
    exact ⟨fun _ hx => hx, fun _ hr => hr, fun _ hr => hr⟩
  | cons q rest ih =>
    intro acc res h
    obtain ⟨f, info⟩ := q
    simp only [exit_loop] at h
    cases hs : exit_step fk acc f info with
    | error e => rw [hs] at h; cases h
    | ok acc2 =>
      rw [hs] at h
      obtain ⟨m1, m2, m3⟩ := exit_step_mono fk acc f info acc2 hs
      obtain ⟨n1, n2, n3⟩ := ih acc2 res h
      exact ⟨fun x hx => n1 x (m1 x hx), fun r hr => n2 r (m2 r hr),
        fun r hr => n3 r (m3 r hr)⟩

/-- What one teardown step adds: a non-success record is finalized
and put in the failed table; a success record not in the failed keys
is put in the succeeded table; a success record in the failed keys
raises the inconsistency exception. -/
theorem exit_step_adds (fk : List String) (acc : ExitSummary) (f : String)
    (info : FileInfo) :
    (exitSuccessCond info = false →
      ∃ acc2, exit_step fk acc f info = .ok acc2 ∧ f ∈ acc2.finalized ∧
        ∃ e2, (displayName f info, e2) ∈ acc2.failedRows) ∧
    (exitSuccessCond info = true → fk.contains f = false →
      ∃ acc2, exit_step fk acc f info = .ok acc2 ∧
        ∃ lc, (displayName f info, lc) ∈ acc2.succeededRows) ∧
    (exitSuccessCond info = true → fk.contains f = true →
      exit_step fk acc f info = .error ("File: " ++ f ++
        " -- Recorded as delivered, but also as failed. Bug. ")) := by
  refine ⟨fun hc => ?_, fun hc hg => ?_, fun hc hg => ?_⟩
  · unfold exit_step
    rw [if_neg (by simp [hc])]
    refine ⟨_, rfl, ?_, ?_⟩
    · split <;> exact List.mem_append_right _ (List.mem_singleton.mpr rfl)
    · split
      · next ha =>
        obtain ⟨r, hr, hr1⟩ := List.any_eq_true.mp ha
        exact ⟨r.2, by
          have hr2 : r.1 = displayName f info := by simpa using hr1
          rw [← hr2]; exact hr⟩
      · exact ⟨info.error ++ "\n",
          List.mem_append_right _ (List.mem_singleton.mpr rfl)⟩
  · unfold exit_step
    rw [if_pos hc, if_neg (by simpa using hg)]
    refine ⟨_, rfl, ?_⟩
    split
    · next ha =>
      obtain ⟨r, hr, hr1⟩ := List.any_eq_true.mp ha
      exact ⟨r.2, by
        have hr2 : r.1 = displayName f info := by simpa using hr1
        rw [← hr2]; exact hr⟩
    · exact ⟨info.directory_path ++ "\n",
        List.mem_append_right _ (List.mem_singleton.mpr rfl)⟩
  · unfold exit_step
    rw [if_pos hc, if_pos hg]

/-- A file only enters the finalized list through a record that fails
the teardown success condition. -/
theorem exit_step_finalized_source (fk : List String) (acc : ExitSummary)
    (f : String) (info : FileInfo) (acc2 : ExitSummary)
    (h : exit_step fk acc f info = .ok acc2) (g : String)
    (hg : g ∈ acc2.finalized) :
    g ∈ acc.finalized ∨ (g = f ∧ exitSuccessCond info = false) := by
  unfold exit_step at h
  split at h
  · next hc =>
    split at h
    · cases h
    · injection h with h; subst h
      refine .inl ?_
      split at hg <;> exact hg
  · next hc =>
    injection h with h; subst h
    have hg2 : g ∈ acc.finalized ++ [f] := by
      split at hg <;> exact hg
    rcases List.mem_append.mp hg2 with h1 | h1
    · exact .inl h1
    · exact .inr ⟨List.mem_singleton.mp h1, by simpa using hc⟩

/-- Files in the finalized list of a teardown run come from records
failing the success condition. -/
theorem exit_loop_finalized_source (fk : List String) (l : Records) :
    ∀ acc res, exit_loop fk l acc = .ok res → ∀ g, g ∈ res.finalized →
      g ∈ acc.finalized ∨ ∃ i, (g, i) ∈ l ∧ exitSuccessCond i = false := by
  induction l with
  | nil =>
    intro acc res h g hg
    injection h with h; subst h
    exact .inl hg
  | cons q rest ih =>
    intro acc res h g hg
    obtain ⟨f, info⟩ := q
    simp only [exit_loop] at h
    cases hs : exit_step fk acc f info with
    | error e => rw [hs] at h; cases h
    | ok acc2 =>
      rw [hs] at h
      rcases ih acc2 res h g hg with hin | ⟨i, hmem, hcond⟩
      · rcases exit_step_finalized_source fk acc f info acc2 hs g hin with
          h1 | ⟨rfl, hc⟩
        · exact .inl h1
        · exact .inr ⟨info, List.mem_cons_self _ _, hc⟩
      · exact .inr ⟨i, List.mem_cons_of_mem _ hmem, hcond⟩

/-- A success-condition record whose file is among the failed keys
makes the teardown loop raise, wherever it sits in the dictionary. -/
theorem exit_loop_raises (fk : List String) (f : String) (info : FileInfo)
    (hcond : exitSuccessCond info = true) (hfail : fk.contains f = true) :
    ∀ (l : Records) (acc : ExitSummary), (f, info) ∈ l →
      ∃ e, exit_loop fk l acc = .error e := by
  intro l
  induction l with
  | nil => intro acc h; cases h
  | cons q rest ih =>
    intro acc hmem
    obtain ⟨g, j⟩ := q
    rcases List.mem_cons.mp hmem with heq | htail
    · have hgf : f = g := congrArg Prod.fst heq
      have hji : info = j := congrArg Prod.snd heq
      have hstep := (exit_step_adds fk acc g j).2.2 (hji ▸ hcond) (hgf ▸ hfail)
      exact ⟨_, by simp only [exit_loop, hstep]; rfl⟩
    · cases hs : exit_step fk acc g j with
      | error e => exact ⟨e, by simp only [exit_loop, hs]⟩
      | ok acc2 =>
        obtain ⟨e, he⟩ := ih acc2 htail
        exact ⟨e, by simp only [exit_loop, hs]; exact he⟩

/-- Every record of the dictionary is routed by the teardown loop:
non-success records into finalized and the failed table, success
records into the succeeded table. -/
theorem exit_loop_routes (fk : List String) (l : Records) :
    ∀ acc res, exit_loop fk l acc = .ok res →
      ∀ f info, (f, info) ∈ l →
        (exitSuccessCond info = false →
          f ∈ res.finalized ∧
            ∃ e2, (displayName f info, e2) ∈ res.failedRows) ∧
        (exitSuccessCond info = true →
          ∃ lc, (displayName f info, lc) ∈ res.succeededRows) := by
  induction l with
  | nil => intro acc res h f info hmem; cases hmem
  | cons q rest ih =>
    intro acc res h f info hmem
    obtain ⟨g, j⟩ := q
    simp only [exit_loop] at h
    cases hs : exit_step fk acc g j with
    | error e => rw [hs] at h; cases h
    | ok acc2 =>
      rw [hs] at h
      rcases List.mem_cons.mp hmem with heq | htail
      · obtain ⟨hgf, hji⟩ := Prod.mk.inj heq
        rw [hgf, hji]
        refine ⟨fun hc => ?_, fun hc => ?_⟩
        · obtain ⟨acc2x, hsx, hf, e2, he⟩ :=
            (exit_step_adds fk acc g j).1 hc
          have hacc : acc2x = acc2 := Except.ok.inj (hsx.symm.trans hs)
          subst hacc
          obtain ⟨m1, m2, m3⟩ := exit_loop_mono fk rest acc2x res h
          exact ⟨m1 _ hf, e2, m2 _ he⟩
        · cases hcon : fk.contains g with
          | true =>
            have hb := (exit_step_adds fk acc g j).2.2 hc hcon
            rw [hb] at hs; cases hs
          | false =>
            obtain ⟨acc2x, hsx, lc, he⟩ :=
              (exit_step_adds fk acc g j).2.1 hc hcon
            have hacc : acc2x = acc2 := Except.ok.inj (hsx.symm.trans hs)
            subst hacc
            obtain ⟨m1, m2, m3⟩ := exit_loop_mono fk rest acc2x res h
            exact ⟨lc, m3 _ he⟩
      · exact ih acc2 res h f info htail

/-- C6 counterexample: the teardown success test does not examine
the processing stage.  A record with proceed=true, upload finished
and registration finished but processing unfinished is reported in
the succeeded summary and is neither finalized nor listed as failed,
contradicting the all-four-conditions claim. -/
theorem exit_success_without_processing :
    demoNoProcessing.processing.finished = false ∧
    exit_data [("f", demoNoProcessing)] [] =
      .ok { succeededRows := [("f", "proj\n")], failedRows := [],
            finalized := [] } :=
  ⟨rfl, rfl⟩

/-- C6 amended: at teardown a record is reported succeeded exactly
when proceed, upload.finished and database.finished hold (the
processing flag is not examined); every record failing this
three-way condition is routed to finalize and the failed summary. -/
theorem exit_summary_routing (data : Records) (fk : List String)
    (res : ExitSummary) (hok : exit_data data fk = .ok res)
    (hnd : (data.map Prod.fst).Nodup) (f : String) (info : FileInfo)
    (hmem : (f, info) ∈ data) :
    (exitSuccessCond info = false →
      f ∈ res.finalized ∧
        ∃ e2, (displayName f info, e2) ∈ res.failedRows) ∧
    (exitSuccessCond info = true →
      f ∉ res.finalized ∧
        ∃ lc, (displayName f info, lc) ∈ res.succeededRows) := by
  have hroutes := exit_loop_routes fk data _ res hok f info hmem
  refine ⟨hroutes.1, fun hc => ⟨?_, hroutes.2 hc⟩⟩
  intro hfin
  rcases exit_loop_finalized_source fk data _ res hok f hfin with
    h1 | ⟨i, hmemi, hci⟩
  · simp at h1
  · have hij := assoc_key_unique data f i info hnd hmemi hmem
    rw [hij] at hci
    simp [hc] at hci

/-- C6 witness: teardown of the two-record demo dictionary routes
the cancelled record to finalized and the failed table, and the
delivered record to the succeeded table only. -/
theorem exit_summary_routing_witness :
    ("bad" ∈ demoExitRes.finalized ∧
      ∃ e2, (displayName "bad" demoCancelled, e2) ∈
        demoExitRes.failedRows) ∧
    ("ok1" ∉ demoExitRes.finalized ∧
      ∃ lc, (displayName "ok1" demoDelivered, lc) ∈
        demoExitRes.succeededRows) :=
  ⟨(exit_summary_routing demoExitData [] demoExitRes rfl (by decide)
      "bad" demoCancelled (by simp [demoExitData])).1 rfl,
    (exit_summary_routing demoExitData [] demoExitRes rfl (by decide)
      "ok1" demoDelivered (by simp [demoExitData])).2 rfl⟩

/-- C10: at teardown the succeeded set and the failed map stay
disjoint by construction: a record meeting the success condition
(proceed, upload finished, database finished) whose file also sits in
the failed keys makes `__exit__` raise the recorded-as-delivered-and-
failed exception instead of producing any summary. -/
theorem exit_inconsistency_raises (data : Records) (fk : List String)
    (f : String) (info : FileInfo) (hmem : (f, info) ∈ data)
    (hcond : exitSuccessCond info = true)
    (hfail : fk.contains f = true) :
    ∃ e, exit_data data fk = .error e :=
  exit_loop_raises fk f info hcond hfail data _ hmem

/-- C10 witness: a delivered record whose file is also a failed key
raises at teardown. -/
theorem exit_inconsistency_raises_witness :
    ∃ e, exit_data [("f", demoDelivered)] ["f"] = .error e :=
  exit_inconsistency_raises [("f", demoDelivered)] ["f"] "f"
    demoDelivered (by simp) rfl (by decide)

/-- Splitting the setup loop at a list boundary: the suffix starts
from the dictionaries and trace the prefix produced, unless the
prefix already aborted. -/
theorem data_to_deliver_go_append (c : String → FileInfo)
    (e : String → Bool) (xs : List String) :
    ∀ (ys : List String) (acc fail : Records) (trace : List String),
      data_to_deliver_go c e (xs ++ ys) acc fail trace =
        match data_to_deliver_go c e xs acc fail trace with
        | (.ok out, tr) =>
          data_to_deliver_go c e ys out.all_files out.initial_fail tr
        | (.error msg, tr) => (.error msg, tr) := by
  induction xs with
  | nil => intro ys acc fail trace; rfl
  | cons d rest ih =>
    intro ys acc fail trace
    rw [List.cons_append]
    cases h1 : acc.any (fun q => q.1 == d)
    · cases h2 : e d
      · simp [data_to_deliver_go, h1, h2]
      · cases h3 : (c d).proceed
        · simp only [data_to_deliver_go, h1, h2, h3, Bool.not_false,
            Bool.not_true, Bool.false_eq_true, if_false, if_true,
            ite_true, ite_false]
          exact ih ys acc (fail ++ [(d, c d)]) (trace ++ [d])
        · simp only [data_to_deliver_go, h1, h2, h3, Bool.not_false,
            Bool.not_true, Bool.false_eq_true, if_false, if_true,
            ite_true, ite_false]
          exact ih ys (acc ++ [(d, c d)]) fail (trace ++ [d])
    · simp [data_to_deliver_go, h1]

/-- C7 counterexample: a duplicated input path is rejected, but not
before any file is touched: on the duplicated two-element list the
setup aborts with the duplicate-path error while the classification
trace already holds the first occurrence, so classification and store
I/O ran for a file before the error was raised. -/
theorem duplicate_not_before_classification :
    (data_to_deliver demoClassify (fun _ => true) ["a", "a"]).1 =
      .error (duplicateError "a") ∧
    (data_to_deliver demoClassify (fun _ => true) ["a", "a"]).2 =
      ["a"] ∧
    (data_to_deliver demoClassify (fun _ => true) ["a", "a"]).2 ≠ [] := by
  refine ⟨rfl, rfl, by decide⟩

/-- C7 amended: a duplicate source path raises the validation error
and aborts the whole invocation, but the error is raised only when
the duplicate entry is reached: entries before it (including the
first occurrence) have already been classified, and the
classification trace at the abort is exactly the trace of the
prefix. -/
theorem duplicate_aborts_after_classification (c : String → FileInfo)
    (e : String → Bool) (pre : List String) (d : String)
    (rest : List String) (out : SetupOutcome)
    (hok : (data_to_deliver c e pre).1 = .ok out)
    (hdup : out.all_files.any (fun q => q.1 == d) = true) :
    data_to_deliver c e (pre ++ d :: rest) =
      (.error (duplicateError d), (data_to_deliver c e pre).2) := by
  unfold data_to_deliver at hok ⊢
  rw [data_to_deliver_go_append]
  rcases hres : data_to_deliver_go c e pre [] [] [] with ⟨r, tr⟩
  rw [hres] at hok
  simp only at hok
  subst hok
  simp only [data_to_deliver_go, hdup, if_true, ite_true]

/-- C7 witness: the amended statement on the concrete duplicated
input, where the prefix classifies file a and the abort trace is that
prefix trace. -/
theorem duplicate_aborts_after_classification_witness :
    data_to_deliver demoClassify (fun _ => true) (["a"] ++ "a" :: ["b"]) =
      (.error (duplicateError "a"),
        (data_to_deliver demoClassify (fun _ => true) ["a"]).2) :=
  duplicate_aborts_after_classification demoClassify (fun _ => true)
    ["a"] "a" ["b"]
    { all_files := [("a", demoClassify "a")], initial_fail := [] }
    rfl (by decide)

/-- A binding already present in the local filesystem survives the
download loop unchanged. -/
theorem get_download_preserves (d : String → Option String) (t : String)
    (ks : List String) :
    ∀ (fs : LocalFS) (p : String) (c : String), fs p = some c →
      (get_download d t ks fs).1 p = some c := by
  induction ks with
  | nil => intro fs p c h; exact h
  | cons key rest ih =>
    intro fs p c h
    cases h1 : (fs (destPath t key)).isSome
    · cases h2 : d key with
      | some content =>
        simp only [get_download, h1, Bool.false_eq_true, if_false, h2,
          ite_false]
        apply ih
        unfold fsWrite
        cases hpq : p == destPath t key
        · simp only [hpq, Bool.false_eq_true, if_false, ite_false]
          exact h
        · have hp : p = destPath t key := by simpa using hpq
          have hcontra : fs (destPath t key) = some c := hp ▸ h
          rw [hcontra] at h1
          simp at h1
      | none =>
        simp only [get_download, h1, Bool.false_eq_true, if_false, h2,
          ite_false]
        exact ih fs p c h
    · simp only [get_download, h1, if_true, ite_true]
      exact ih fs p c h

/-- After the download loop, every key whose transfer can succeed has
a file at its destination. -/
theorem get_download_covers (d : String → Option String) (t : String)
    (ks : List String) :
    ∀ (fs : LocalFS) (k : String), k ∈ ks → (d k).isSome = true →
      ((get_download d t ks fs).1 (destPath t k)).isSome = true := by
  induction ks with
  | nil => intro fs k h; cases h
  | cons key rest ih =>
    intro fs k hmem hd
    rcases List.mem_cons.mp hmem with heq | htail
    · subst heq
      cases h1 : (fs (destPath t k)).isSome
      · obtain ⟨c, hc⟩ := Option.isSome_iff_exists.mp hd
        simp only [get_download, h1, Bool.false_eq_true, if_false, hc,
          ite_false]
        rw [get_download_preserves d t rest _ (destPath t k) c
          (by simp [fsWrite])]
        rfl
      · obtain ⟨c, hc⟩ := Option.isSome_iff_exists.mp h1
        simp only [get_download, h1, if_true, ite_true]
        rw [get_download_preserves d t rest fs (destPath t k) c hc]
        rfl
    · cases h1 : (fs (destPath t key)).isSome
      · cases h2 : d key with
        | some content =>
          simp only [get_download, h1, Bool.false_eq_true, if_false, h2,
            ite_false]
          exact ih _ k htail hd
        | none =>
          simp only [get_download, h1, Bool.false_eq_true, if_false, h2,
            ite_false]
          exact ih fs k htail hd
      · simp only [get_download, h1, if_true, ite_true]
        exact ih fs k htail hd

/-- When every key is already present or cannot download, the loop
changes nothing. -/
theorem get_download_id (d : String → Option String) (t : String)
    (ks : List String) :
    ∀ (fs : LocalFS),
      (∀ k, k ∈ ks → ((fs (destPath t k)).isSome = true ∨ d k = none)) →
      (get_download d t ks fs).1 = fs := by
  induction ks with
  | nil => intro fs _; rfl
  | cons key rest ih =>
    intro fs hall
    have htail : ∀ k, k ∈ rest →
        ((fs (destPath t k)).isSome = true ∨ d k = none) :=
      fun k hk => hall k (List.mem_cons_of_mem _ hk)
    cases h2 : (fs (destPath t key)).isSome
    · rcases hall key (List.mem_cons_self _ _) with h1 | h1
      · rw [h1] at h2; cases h2
      · simp only [get_download, h2, Bool.false_eq_true, if_false, h1,
          ite_false]
        exact ih fs htail
    · simp only [get_download, h2, if_true, ite_true]
      exact ih fs htail

/-- A key whose destination already exists is reported in the skip
warnings of the download loop. -/
theorem get_download_warns (d : String → Option String) (t : String)
    (ks : List String) :
    ∀ (fs : LocalFS) (k : String), k ∈ ks →
      (fs (destPath t k)).isSome = true →
      destPath t k ∈ (get_download d t ks fs).2 := by
  induction ks with
  | nil => intro fs k h; cases h
  | cons key rest ih =>
    intro fs k hmem hex
    rcases List.mem_cons.mp hmem with heq | htail
    · subst heq
      simp only [get_download, hex, if_true, ite_true]
      exact List.mem_cons_self _ _
    · cases h1 : (fs (destPath t key)).isSome
      · cases h2 : d key with
        | some content =>
          simp only [get_download, h1, Bool.false_eq_true, if_false, h2,
            ite_false]
          apply ih _ k htail
          unfold fsWrite
          cases hpq : destPath t k == destPath t key
          · simp only [hpq, Bool.false_eq_true, if_false, ite_false]
            exact hex
          · simp only [hpq, if_true, ite_true]
            rfl
        | none =>
          simp only [get_download, h1, Bool.false_eq_true, if_false, h2,
            ite_false]
          exact ih fs k htail hex
      · simp only [get_download, h1, if_true, ite_true]
        exact List.mem_cons_of_mem _ (ih fs k htail hex)

/-- C9: a key whose local destination already exists is skipped with
a warning and its contents survive the whole download loop
unchanged, and running the same download loop a second time over the
resulting filesystem changes nothing, so running the get twice
leaves the local destination as running it once. -/
theorem get_skip_and_idempotent (download : String → Option String)
    (t : String) (ks : List String) (fs : LocalFS) (k : String)
    (c : String) (hmem : k ∈ ks)
    (hex : fs (destPath t k) = some c) :
    (get_download download t ks fs).1 (destPath t k) = some c ∧
    destPath t k ∈ (get_download download t ks fs).2 ∧
    (get_download download t ks
      ((get_download download t ks fs).1)).1 =
      (get_download download t ks fs).1 := by
  refine ⟨get_download_preserves download t ks fs _ c hex,
    get_download_warns download t ks fs k hmem (by rw [hex]; rfl), ?_⟩
  apply get_download_id
  intro k2 hk2
  cases hd : download k2 with
  | none => exact .inr rfl
  | some c2 =>
    exact .inl (get_download_covers download t ks fs k2 hk2
      (by rw [hd]; rfl))

/-- C9 witness: the demo filesystem already holding the destination
of key a keeps its contents, warns, and a second run of the loop is
a no-op. -/
theorem get_skip_and_idempotent_witness :
    (get_download demoDownload "tmp" ["a", "b"] demoFS).1
      (destPath "tmp" "a") = some "old" ∧
    destPath "tmp" "a" ∈
      (get_download demoDownload "tmp" ["a", "b"] demoFS).2 ∧
    (get_download demoDownload "tmp" ["a", "b"]
      ((get_download demoDownload "tmp" ["a", "b"] demoFS).1)).1 =
      (get_download demoDownload "tmp" ["a", "b"] demoFS).1 :=
  get_skip_and_idempotent demoDownload "tmp" ["a", "b"] demoFS "a" "old"
    (by decide) (by decide)

/-- C3 witness: finalize evaluated on the two concrete disagreement
records over the demo stores. -/
theorem finalize_restores_agreement_witness :
    ((finalize demoUploaded demoStores false false).1 = true ∧
      (finalize demoUploaded demoStores false false).2.bucket =
        demoStores.bucket.erase demoUploaded.new_file ∧
      demoUploaded.new_file ∉
        (finalize demoUploaded demoStores false false).2.bucket ∧
      (finalize demoUploaded demoStores false false).2.dbFiles =
        demoStores.dbFiles) ∧
    ((finalize demoRegistered demoStores false false).1 = true ∧
      (finalize demoRegistered demoStores false false).2.dbFiles =
        demoStores.dbFiles.erase demoRegistered.new_file ∧
      demoRegistered.new_file ∉
        (finalize demoRegistered demoStores false false).2.dbFiles ∧
      (finalize demoRegistered demoStores false false).2.bucket =
        demoStores.bucket) :=
  ⟨(finalize_restores_agreement demoUploaded demoStores false false
      (by decide) (by decide)).1 rfl rfl rfl,
    (finalize_restores_agreement demoRegistered demoStores false false
      (by decide) (by decide)).2.1 rfl rfl rfl⟩

end DataDeliverer
